import Mathlib

/-
  Verification of the sample-aggregation and anomaly-detection pipeline of
  the fps-monitor-overlay repository.

  Shallow embedding conventions:
  * C++ `double` is modelled as `ℚ` (exact arithmetic for the algebraic laws).
  * The `std::chrono::steady_clock` readings are passed in explicitly as a
    `now : ℚ` parameter wherever the source calls `steady_clock::now()`.
  * Fallible accessors (which throw in C++) return `Option`.
  * The drop callback is modelled as the `Option Drop` component of the
    result of `DropDetector.update`: `some d` means the callback fired
    with event `d`, `none` means it did not fire.
-/

namespace FpsMonitor

/-! ## Ring buffer (src/core/ring_buffer.h)

`RingBuffer<T, N>` stores `m_buffer` (a vector of length `N`), the next
write position `m_head` and the current element count `m_size`.  The
backing vector is modelled as a total function `Nat → T`; every access in
the source is through an index reduced `% N`, so only indices `< N` are
ever consulted. -/

structure RingBuffer (T : Type) (N : Nat) where
  m_buffer : Nat → T
  m_head : Nat
  m_size : Nat

namespace RingBuffer

variable {T : Type} {N : Nat}

/-- The state of a freshly constructed `RingBuffer` (`m_head = 0`,
`m_size = 0`, backing storage default-initialised by `resize(N)`). -/
def empty [Inhabited T] : RingBuffer T N :=
  { m_buffer := fun _ => default, m_head := 0, m_size := 0 }

/-- Embedding of `RingBuffer::push`: write at `m_head`, advance the head
`% N`, and grow `m_size` unless the buffer is already full. -/
def push (rb : RingBuffer T N) (value : T) : RingBuffer T N :=
  { m_buffer := fun j => if j = rb.m_head then value else rb.m_buffer j
    m_head := (rb.m_head + 1) % N
    m_size := if rb.m_size < N then rb.m_size + 1 else rb.m_size }

/-- Embedding of `RingBuffer::get`: `none` models the thrown
`std::out_of_range` when `index >= m_size`; otherwise the element at
`(m_head + N - m_size + index) % N`. -/
def get (rb : RingBuffer T N) (index : Nat) : Option T :=
  if index ≥ rb.m_size then none
  else some (rb.m_buffer ((rb.m_head + N - rb.m_size + index) % N))

/-- Embedding of `RingBuffer::latest`: `none` models the thrown
`std::runtime_error` on an empty buffer; otherwise the element at
`(m_head + N - 1) % N`. -/
def latest (rb : RingBuffer T N) : Option T :=
  if rb.m_size = 0 then none
  else some (rb.m_buffer ((rb.m_head + N - 1) % N))

/-- Embedding of `RingBuffer::getAll`: the elements in chronological
order, oldest to newest. -/
def getAll (rb : RingBuffer T N) : List T :=
  (List.range rb.m_size).map fun i =>
    rb.m_buffer ((rb.m_head + N - rb.m_size + i) % N)

/-- Embedding of `RingBuffer::size`. -/
def size (rb : RingBuffer T N) : Nat := rb.m_size

/-- Embedding of `RingBuffer::capacity`. -/
def capacity (_ : RingBuffer T N) : Nat := N

/-- Embedding of `RingBuffer::isFull`. -/
def isFull (rb : RingBuffer T N) : Bool := rb.m_size = N

/-- Embedding of `RingBuffer::isEmpty`. -/
def isEmpty (rb : RingBuffer T N) : Bool := rb.m_size = 0

/-- Embedding of `RingBuffer::clear`. -/
def clear (rb : RingBuffer T N) : RingBuffer T N :=
  { rb with m_head := 0, m_size := 0 }

/-- Pushing a whole list of values, in order. -/
def pushAll (rb : RingBuffer T N) (vs : List T) : RingBuffer T N :=
  vs.foldl push rb

end RingBuffer

/-! ## FPS calculator (src/core/fps_calculator.h / fps_calculator.cpp)

`FpsCalculator` owns a `RingBuffer<double, MAX_HISTORY>` with
`MAX_HISTORY = 600`; the constructor stores `min(historySize, MAX_HISTORY)`
in `m_historySize`.  (The `QueryPerformanceFrequency` timer field plays no
role in `update` and is omitted.) -/

def MAX_HISTORY : Nat := 600

def MAX_FPS : ℚ := 1000

structure FpsCalculator where
  m_samples : RingBuffer ℚ MAX_HISTORY
  m_currentFPS : ℚ
  m_averageFPS : ℚ
  m_historySize : Nat

namespace FpsCalculator

/-- Embedding of the constructor `FpsCalculator(size_t historySize)`. -/
def construct (historySize : Nat) : FpsCalculator :=
  { m_samples := RingBuffer.empty
    m_currentFPS := 0
    m_averageFPS := 0
    m_historySize := min historySize MAX_HISTORY }

/-- Embedding of `FpsCalculator::calculateAverage`: arithmetic mean of
the full current buffer snapshot, `0.0` on an empty buffer. -/
def calculateAverage (c : FpsCalculator) : ℚ :=
  let samples := c.m_samples.getAll
  if samples.isEmpty then 0
  else samples.sum / (samples.length : ℚ)

/-- Embedding of `FpsCalculator::update`: no-op for `deltaTime ≤ 0`;
otherwise compute `1 / deltaTime`, clamp to `[0, MAX_FPS]`, push, and
recompute the rolling mean from the buffer. -/
def update (c : FpsCalculator) (deltaTime : ℚ) : FpsCalculator :=
  if deltaTime ≤ 0 then c
  else
    let fps := max 0 (min (1 / deltaTime) MAX_FPS)
    let samples := c.m_samples.push fps
    { m_samples := samples
      m_currentFPS := fps
      m_averageFPS := calculateAverage { c with m_samples := samples }
      m_historySize := c.m_historySize }

/-- Embedding of `FpsCalculator::getCurrentFPS`. -/
def getCurrentFPS (c : FpsCalculator) : ℚ := c.m_currentFPS

/-- Embedding of `FpsCalculator::getAverageFPS`. -/
def getAverageFPS (c : FpsCalculator) : ℚ := c.m_averageFPS

/-- Embedding of `FpsCalculator::getSamples` (delegates to `getAll`). -/
def getSamples (c : FpsCalculator) : List ℚ := c.m_samples.getAll

/-- Embedding of `FpsCalculator::getSampleCount`. -/
def getSampleCount (c : FpsCalculator) : Nat := c.m_samples.size

/-- Embedding of `FpsCalculator::reset`. -/
def reset (c : FpsCalculator) : FpsCalculator :=
  { c with m_samples := c.m_samples.clear, m_currentFPS := 0, m_averageFPS := 0 }

/-- Feeding a sequence of delta-time measurements, one `update` per tick. -/
def feed (c : FpsCalculator) (ds : List ℚ) : FpsCalculator :=
  ds.foldl update c

/-- The arithmetic mean of a list, as the spec words it (0 on empty). -/
def listMean (l : List ℚ) : ℚ :=
  if l.isEmpty then 0 else l.sum / (l.length : ℚ)

end FpsCalculator

/-! ## Statistics tracker (src/core/stats_tracker.h / stats_tracker.cpp)

Only the pure computational kernel (`calculateStats` and
`calculatePercentile`) is relevant to the claims; the millisecond
throttle around it merely decides whether the kernel runs. -/

structure Stats where
  average : ℚ
  min : ℚ
  max : ℚ
  percentile01 : ℚ
  percentile1 : ℚ
  deriving DecidableEq

namespace StatsTracker

/-- Embedding of `StatsTracker::calculatePercentile`.  The `double`
index is exact here; `static_cast<size_t>(std::floor/std::ceil(..))` is
`Int.toNat (Int.floor ..)` (the arguments are non-negative in every call
the source makes). -/
def calculatePercentile (sortedSamples : List ℚ) (percentile : ℚ) : ℚ :=
  if sortedSamples.isEmpty then 0
  else if sortedSamples.length = 1 then sortedSamples.getD 0 0
  else
    let index : ℚ := percentile * ((sortedSamples.length - 1 : Nat) : ℚ)
    let lowerIndex : Nat :=
      min (Int.toNat (Int.floor index)) (sortedSamples.length - 1)
    let upperIndex : Nat :=
      min (Int.toNat (Int.ceil index)) (sortedSamples.length - 1)
    if lowerIndex = upperIndex then sortedSamples.getD lowerIndex 0
    else
      let weight : ℚ := index - (lowerIndex : ℚ)
      sortedSamples.getD lowerIndex 0 * (1 - weight)
        + sortedSamples.getD upperIndex 0 * weight

/-- Embedding of `StatsTracker::calculateStats` (the `std::sort` call is
modelled by insertion sort, an ascending comparison sort). -/
def calculateStats (samples : List ℚ) : Stats :=
  if samples.isEmpty then ⟨0, 0, 0, 0, 0⟩
  else
    let sorted := List.insertionSort (· ≤ ·) samples
    { average := sorted.sum / (sorted.length : ℚ)
      min := sorted.headD 0
      max := sorted.getLastD 0
      percentile01 := calculatePercentile sorted (1 / 1000)
      percentile1 := calculatePercentile sorted (1 / 100) }

/-- Modelled from the spec (section 4.3, percentile algorithm): for
`n ≥ 2`, `idx = p * (n − 1)`, `lo = floor idx` and `hi = ceil idx`
clamped to `[0, n−1]`, and the result is the linear interpolation between
`sorted[lo]` and `sorted[hi]` weighted by `idx − lo`; `0` for `n = 0`
and the single element for `n = 1`. -/
def percentileSpec (sorted : List ℚ) (p : ℚ) : ℚ :=
  if sorted.length = 0 then 0
  else if sorted.length = 1 then sorted.getD 0 0
  else
    let idx : ℚ := p * ((sorted.length - 1 : Nat) : ℚ)
    let lo : Nat := min (Int.toNat (Int.floor idx)) (sorted.length - 1)
    let hi : Nat := min (Int.toNat (Int.ceil idx)) (sorted.length - 1)
    sorted.getD lo 0 + (sorted.getD hi 0 - sorted.getD lo 0)
      * (idx - (lo : ℚ))

end StatsTracker

/-! ## Drop detector (src/core/drop_detector.h / drop_detector.cpp)

`steady_clock::now()` readings are passed explicitly; the callback is
modelled as the `Option Drop` component of `update`. -/

def DEBOUNCE_SECONDS : ℚ := 1 / 2

def MAX_DROP_HISTORY : Nat := 100

structure Drop where
  timestamp : ℚ
  averageFPS : ℚ
  currentFPS : ℚ
  magnitude : ℚ
  deriving DecidableEq

structure DropDetector where
  m_thresholdPercent : ℚ
  m_drops : List Drop
  m_lastDrop : ℚ

namespace DropDetector

/-- Embedding of the constructor `DropDetector(double thresholdPercent)`;
`m_lastDrop` is initialised to the construction-time clock reading. -/
def construct (thresholdPercent : ℚ) (now : ℚ) : DropDetector :=
  { m_thresholdPercent := thresholdPercent
    m_drops := []
    m_lastDrop := now }

/-- Embedding of `DropDetector::checkForDrop`. -/
def checkForDrop (det : DropDetector) (currentFPS averageFPS : ℚ) : Bool :=
  if averageFPS < 10 then false
  else decide (((averageFPS - currentFPS) / averageFPS) * 100
    ≥ det.m_thresholdPercent)

/-- Embedding of `DropDetector::update`.  Returns the state after the
call paired with the callback argument (`some drop` exactly when a drop
was recorded and the callback invoked, `none` otherwise). -/
def update (det : DropDetector) (now currentFPS averageFPS : ℚ) :
    DropDetector × Option Drop :=
  if checkForDrop det currentFPS averageFPS then
    if now - det.m_lastDrop ≥ DEBOUNCE_SECONDS then
      let drop : Drop :=
        { timestamp := now
          averageFPS := averageFPS
          currentFPS := currentFPS
          magnitude := (averageFPS - currentFPS) / averageFPS }
      let drops1 := det.m_drops ++ [drop]
      let drops2 :=
        if drops1.length > MAX_DROP_HISTORY then drops1.tail else drops1
      ({ m_thresholdPercent := det.m_thresholdPercent
         m_drops := drops2
         m_lastDrop := now }, some drop)
    else (det, none)
  else (det, none)

/-- Embedding of `DropDetector::setThreshold` (clamp to `[5, 50]`). -/
def setThreshold (det : DropDetector) (thresholdPercent : ℚ) : DropDetector :=
  { det with m_thresholdPercent := max 5 (min thresholdPercent 50) }

/-- Embedding of `DropDetector::getThreshold`. -/
def getThreshold (det : DropDetector) : ℚ := det.m_thresholdPercent

/-- Embedding of `DropDetector::getDrops`. -/
def getDrops (det : DropDetector) : List Drop := det.m_drops

/-- Embedding of `DropDetector::getRecentDrops`. -/
def getRecentDrops (det : DropDetector) (now seconds : ℚ) : List Drop :=
  det.m_drops.filter fun d => decide (now - d.timestamp ≤ seconds)

/-- Embedding of `DropDetector::clearHistory`. -/
def clearHistory (det : DropDetector) : DropDetector :=
  { det with m_drops := [] }

end DropDetector

/-! ## Lemmas about the ring buffer -/

namespace RingBuffer

variable {T : Type} {N : Nat}

theorem pushAll_append (rb : RingBuffer T N) (vs ws : List T) :
    pushAll rb (vs ++ ws) = pushAll (pushAll rb vs) ws :=
  List.foldl_append ..

theorem length_getAll (rb : RingBuffer T N) : rb.getAll.length = rb.m_size := by
  simp [getAll]

/-- Auxiliary modular-arithmetic fact: adding a nonzero offset `k < N`
moves an in-range head index to a different slot. -/
theorem mod_add_ne {h k : Nat} (hh : h < N) (hk1 : 0 < k) (hk2 : k < N) :
    (h + k) % N ≠ h := by
  rcases Nat.lt_or_ge (h + k) N with hlt | hge
  · rw [Nat.mod_eq_of_lt hlt]; omega
  · rw [Nat.mod_eq_sub_mod hge, Nat.mod_eq_of_lt (by omega)]; omega

/-- One push, seen through `getAll`: a non-full buffer appends the new
value; a full buffer drops its oldest element and appends. -/
theorem getAll_push (rb : RingBuffer T N) (v : T) (hN : 0 < N)
    (hh : rb.m_head < N) (hs : rb.m_size ≤ N) :
    (rb.push v).getAll =
      (if rb.m_size < N then rb.getAll else rb.getAll.tail) ++ [v] := by
  rcases rb with ⟨buf, h, s⟩
  simp only [push, getAll] at *
  by_cases hsN : s < N
  · simp only [if_pos hsN]
    have hkey : ∀ i : Nat, ((h + 1) % N + N - (s + 1) + i) % N
        = (h + N - s + i) % N := by
      intro i
      have e1 : (h + 1) % N + N - (s + 1) + i
          = (h + 1) % N + ((N - (s + 1)) + i) := by omega
      have e2 : ((h + 1) % N + ((N - (s + 1)) + i)) % N
          = (h + 1 + ((N - (s + 1)) + i)) % N := Nat.mod_add_mod ..
      have e3 : h + 1 + ((N - (s + 1)) + i) = h + N - s + i := by omega
      rw [e1, e2, e3]
    have hrange : List.range (s + 1) = List.range s ++ [s] := List.range_succ s
    rw [hrange, List.map_append, List.map_singleton]
    congr 1
    · apply List.map_congr_left
      intro i hi
      have hi' : i < s := List.mem_range.mp hi
      rw [hkey i]
      have hne : (h + N - s + i) % N ≠ h := by
        have e4 : h + N - s + i = h + (N - s + i) := by omega
        rw [e4]
        exact mod_add_ne hh (by omega) (by omega)
      simp [hne]
    · rw [hkey s]
      have e5 : h + N - s + s = h + N := by omega
      rw [e5, Nat.add_mod_right, Nat.mod_eq_of_lt hh]
      simp
  · simp only [if_neg hsN]
    have hsN' : N = s := by omega
    subst hsN'
    have hkey : ∀ i : Nat, ((h + 1) % N + N - N + i) % N = (h + 1 + i) % N := by
      intro i
      have e1 : (h + 1) % N + N - N + i = (h + 1) % N + i := by omega
      rw [e1, Nat.mod_add_mod]
    have hold : ∀ i : Nat, h + N - N + i = h + i := by omega
    have hN1 : N = (N - 1) + 1 := by omega
    have hsplitL : List.range N = List.range (N - 1) ++ [N - 1] := by
      conv_lhs => rw [hN1]
      exact List.range_succ (N - 1)
    have hsplitR : List.range N = 0 :: (List.range (N - 1)).map Nat.succ := by
      conv_lhs => rw [hN1]
      exact List.range_succ_eq_map (N - 1)
    conv_lhs => rw [hsplitL]
    conv_rhs => rw [hsplitR]
    rw [List.map_append, List.map_singleton, List.map_cons, List.tail_cons,
      List.map_map]
    congr 1
    · apply List.map_congr_left
      intro i hi
      have hi' : i < N - 1 := List.mem_range.mp hi
      simp only [Function.comp, Nat.succ_eq_add_one]
      rw [hkey i]
      have hne : (h + 1 + i) % N ≠ h := by
        have e2 : h + 1 + i = h + (1 + i) := by omega
        rw [e2]
        exact mod_add_ne hh (by omega) (by omega)
      rw [hold (i + 1)]
      have e3 : h + (i + 1) = h + 1 + i := by omega
      rw [e3]
      simp [hne]
    · rw [hkey (N - 1)]
      have e4 : h + 1 + (N - 1) = h + N := by omega
      rw [e4, Nat.add_mod_right, Nat.mod_eq_of_lt hh]
      simp

theorem head_lt_push (rb : RingBuffer T N) (v : T) (hN : 0 < N) :
    (rb.push v).m_head < N := Nat.mod_lt _ hN

theorem size_le_push (rb : RingBuffer T N) (v : T) (hs : rb.m_size ≤ N) :
    (rb.push v).m_size ≤ N := by
  simp only [push]
  split <;> omega

theorem wf_pushAll [Inhabited T] (hN : 0 < N) (vs : List T) :
    (pushAll (empty : RingBuffer T N) vs).m_head < N ∧
      (pushAll (empty : RingBuffer T N) vs).m_size ≤ N := by
  induction vs using List.reverseRecOn with
  | nil => exact ⟨hN, Nat.zero_le N⟩
  | append_singleton vs v ih =>
      rw [pushAll_append]
      exact ⟨head_lt_push _ v hN, size_le_push _ v ih.2⟩

/-- The central characterisation of reachable buffer states: after
pushing the list `vs` into a fresh buffer of capacity `N`, the
chronological contents are exactly the last `min vs.length N` pushed
values, in push order. -/
theorem getAll_pushAll [Inhabited T] (hN : 0 < N) (vs : List T) :
    (pushAll (empty : RingBuffer T N) vs).getAll
      = vs.drop (vs.length - N) := by
  induction vs using List.reverseRecOn with
  | nil => simp [pushAll, empty, getAll]
  | append_singleton vs v ih =>
      rw [pushAll_append]
      have hwf := wf_pushAll (T := T) hN vs
      have hsz : (pushAll (empty : RingBuffer T N) vs).m_size
          = vs.length - (vs.length - N) := by
        rw [← length_getAll, ih, List.length_drop]
      rw [pushAll, List.foldl_cons, List.foldl_nil,
        getAll_push _ v hN hwf.1 hwf.2, ih]
      by_cases hc : vs.length < N
      · have hlt : (pushAll (empty : RingBuffer T N) vs).m_size < N := by omega
        rw [if_pos hlt]
        have d1 : vs.length - N = 0 := by omega
        have d2 : vs.length + 1 - N = 0 := by omega
        simp [d1, d2]
      · have hge : ¬ (pushAll (empty : RingBuffer T N) vs).m_size < N := by omega
        rw [if_neg hge]
        rw [← List.drop_one, List.drop_drop]
        have e1 : vs.length - N + 1 = vs.length + 1 - N := by omega
        rw [e1]
        have e2 : (vs ++ [v]).length - N = vs.length + 1 - N := by
          simp only [List.length_append, List.length_singleton]
        have e3 : (vs ++ [v]).drop (vs.length + 1 - N)
            = vs.drop (vs.length + 1 - N) ++ [v] := by
          rw [List.drop_append_of_le_length (by omega)]
        rw [e2, e3]

theorem size_pushAll [Inhabited T] (hN : 0 < N) (vs : List T) :
    (pushAll (empty : RingBuffer T N) vs).m_size = min vs.length N := by
  rw [← length_getAll, getAll_pushAll hN, List.length_drop]
  omega

/-- `get` agrees with indexing into the chronological contents. -/
theorem get_eq_getAll (rb : RingBuffer T N) (i : Nat) :
    rb.get i = rb.getAll[i]? := by
  simp only [get, getAll]
  by_cases h : i < rb.m_size
  · rw [if_neg (by omega), List.getElem?_map, List.getElem?_range h]
    rfl
  · rw [if_pos (by omega)]
    symm
    apply List.getElem?_eq_none
    simp only [List.length_map, List.length_range]
    omega

/-- `latest` agrees with the last element of the chronological contents. -/
theorem latest_eq_getAll (rb : RingBuffer T N) (hs : rb.m_size ≤ N) :
    rb.latest = rb.getAll.getLast? := by
  simp only [latest, getAll]
  by_cases h0 : rb.m_size = 0
  · rw [if_pos h0, h0]
    simp
  · rw [if_neg h0, List.getLast?_eq_getElem?]
    simp only [List.length_map, List.length_range]
    rw [List.getElem?_map, List.getElem?_range (by omega)]
    have e1 : rb.m_head + N - rb.m_size + (rb.m_size - 1)
        = rb.m_head + N - 1 := by omega
    simp only [Option.map_some']
    rw [e1]

/-- Dropping an initial segment that stops short of the end preserves the
last element. -/
theorem getLast?_drop_sub (l : List T) (n : Nat) (hn : 0 < n) :
    (l.drop (l.length - n)).getLast? = l.getLast? := by
  rcases Nat.eq_zero_or_pos l.length with h0 | hpos
  · have hnil : l = [] := List.length_eq_zero.mp h0
    subst hnil
    simp
  · rw [List.getLast?_eq_getElem?, List.getLast?_eq_getElem?,
      List.length_drop, List.getElem?_drop]
    congr 1
    omega

end RingBuffer

/-! ## Lemmas about the FPS calculator -/

namespace FpsCalculator

theorem feed_append (c : FpsCalculator) (ds es : List ℚ) :
    feed c (ds ++ es) = feed (feed c ds) es :=
  List.foldl_append ..

theorem update_pos (c : FpsCalculator) (d : ℚ) (hd : 0 < d) :
    update c d =
      { m_samples := c.m_samples.push (max 0 (min (1 / d) MAX_FPS))
        m_currentFPS := max 0 (min (1 / d) MAX_FPS)
        m_averageFPS := calculateAverage
          { c with m_samples := c.m_samples.push (max 0 (min (1 / d) MAX_FPS)) }
        m_historySize := c.m_historySize } := by
  rw [update, if_neg (by exact not_le.mpr hd)]

/-- With `0 ≤ q ≤ MAX_FPS` the clamp is the identity. -/
theorem clamp_eq_self {q : ℚ} (h0 : 0 ≤ q) (h1 : q ≤ MAX_FPS) :
    max 0 (min q MAX_FPS) = q := by
  rw [min_eq_left h1, max_eq_right h0]

/-- After feeding `k` copies of a positive delta `d`, the buffer holds
exactly the pushes of the clamped instantaneous rate. -/
theorem samples_feed_replicate (h : Nat) (d : ℚ) (hd : 0 < d) (k : Nat) :
    (feed (construct h) (List.replicate k d)).m_samples
      = RingBuffer.pushAll RingBuffer.empty
          (List.replicate k (max 0 (min (1 / d) MAX_FPS))) := by
  induction k with
  | zero => rfl
  | succ k ih =>
      rw [List.replicate_succ' k d, feed_append, List.replicate_succ']
      rw [RingBuffer.pushAll_append]
      show (update (feed (construct h) (List.replicate k d)) d).m_samples = _
      rw [update_pos _ d hd]
      rw [ih]
      rfl

theorem calculateAverage_eq (c : FpsCalculator) :
    calculateAverage c = listMean c.m_samples.getAll := rfl

theorem averageFPS_update_pos (c : FpsCalculator) (d : ℚ) (hd : 0 < d) :
    (update c d).m_averageFPS
      = listMean (c.m_samples.push (max 0 (min (1 / d) MAX_FPS))).getAll := by
  rw [update_pos c d hd]
  rfl

theorem listMean_replicate (m : Nat) (hm : 0 < m) (x : ℚ) :
    listMean (List.replicate m x) = x := by
  have hne : ¬ (List.replicate m x).isEmpty = true := by
    simp only [List.isEmpty_iff, List.replicate_eq_nil_iff]
    omega
  rw [listMean, if_neg hne, List.sum_replicate, List.length_replicate,
    nsmul_eq_mul]
  exact mul_div_cancel_left₀ x (by exact_mod_cast hm.ne')

/-- Rolling mean after `k ≥ 1` constant positive deltas `d` whose rate
does not hit the clamp: exactly `1 / d`. -/
theorem averageFPS_feed_replicate (h : Nat) (d : ℚ) (hd : 0 < d)
    (hclamp : 1 / d ≤ MAX_FPS) (k : Nat) (hk : 1 ≤ k) :
    (feed (construct h) (List.replicate k d)).m_averageFPS = 1 / d := by
  obtain ⟨k', rfl⟩ : ∃ k', k = k' + 1 := ⟨k - 1, by omega⟩
  have h0 : (0 : ℚ) ≤ 1 / d := by positivity
  have hfps : max 0 (min (1 / d) MAX_FPS) = 1 / d := clamp_eq_self h0 hclamp
  have hsamp : (feed (construct h) (List.replicate k' d)).m_samples.push
        (max 0 (min (1 / d) MAX_FPS))
      = RingBuffer.pushAll RingBuffer.empty
          (List.replicate (k' + 1) (max 0 (min (1 / d) MAX_FPS))) := by
    rw [samples_feed_replicate h d hd k',
      List.replicate_succ' k' (max 0 (min (1 / d) MAX_FPS)),
      RingBuffer.pushAll_append]
    rfl
  rw [List.replicate_succ' k' d, feed_append]
  show (update (feed (construct h) (List.replicate k' d)) d).m_averageFPS = 1 / d
  rw [averageFPS_update_pos _ d hd, hsamp,
    RingBuffer.getAll_pushAll (by norm_num [MAX_HISTORY]),
    List.length_replicate, List.drop_replicate, hfps]
  apply listMean_replicate
  have hpos : 0 < MAX_HISTORY := by norm_num [MAX_HISTORY]
  omega

end FpsCalculator

/-! ## Lemmas about the drop detector -/

namespace DropDetector

theorem checkForDrop_iff (det : DropDetector) (c a : ℚ) :
    checkForDrop det c a = true
      ↔ ¬ a < 10 ∧ ((a - c) / a) * 100 ≥ det.m_thresholdPercent := by
  rw [checkForDrop]
  by_cases h : a < 10
  · simp [h]
  · simp [h]

theorem threshold_update (det : DropDetector) (now c a : ℚ) :
    (update det now c a).1.m_thresholdPercent = det.m_thresholdPercent := by
  rw [update]
  split
  · split <;> rfl
  · rfl

end DropDetector

/-! ## Claim theorems -/

/-- C1: oldest-overwrite law of the history buffer.  For every capacity
`N > 0` and every sequence of more than `N` pushes into a fresh buffer,
`size()` equals `N` and, for every `i < N`, `get i` returns the
`(pushCount − N + i)`-th pushed value; in particular `get 0` returns the
`(pushCount − N)`-th pushed value, so each push past capacity evicts
exactly the oldest sample and retained samples stay in chronological
order. -/
theorem C1_oldest_overwrite {T : Type} [Inhabited T] (N : Nat) (vs : List T)
    (hN : 0 < N) (hlen : N < vs.length) :
    (RingBuffer.pushAll (RingBuffer.empty : RingBuffer T N) vs).size = N ∧
    ∀ i, i < N →
      (RingBuffer.pushAll (RingBuffer.empty : RingBuffer T N) vs).get i
        = some (vs.getD (vs.length - N + i) default) := by
  constructor
  · rw [RingBuffer.size, RingBuffer.size_pushAll hN]
    omega
  · intro i hi
    have hj : vs.length - N + i < vs.length := by omega
    rw [RingBuffer.get_eq_getAll, RingBuffer.getAll_pushAll hN,
      List.getElem?_drop, List.getElem?_eq_getElem hj,
      List.getD_eq_getElem?_getD, List.getElem?_eq_getElem hj]
    rfl

/-- C1 witness: capacity 2, three pushes; the retained samples are the
last two pushed values. -/
theorem C1_oldest_overwrite_witness :
    0 < 2 ∧ 2 < ([10, 20, 30] : List ℕ).length ∧
    (RingBuffer.pushAll (RingBuffer.empty : RingBuffer ℕ 2) [10, 20, 30]).size
      = 2 ∧
    (RingBuffer.pushAll (RingBuffer.empty : RingBuffer ℕ 2) [10, 20, 30]).get 0
      = some 20 := by
  have h := C1_oldest_overwrite 2 [10, 20, 30] (by decide) (by decide)
  refine ⟨by decide, by decide, h.1, ?_⟩
  have h2 := h.2 0 (by decide)
  rw [h2]
  rfl

/-- C9: for every `deltaTime ≤ 0` the rate calculator's `update` is a
complete no-op: the state (current rate, rolling mean, buffer) is exactly
unchanged. -/
theorem C9_nonpositive_noop (c : FpsCalculator) (d : ℚ) (hd : d ≤ 0) :
    FpsCalculator.update c d = c := by
  rw [FpsCalculator.update, if_pos hd]

/-- C9 witness: feeding `-1` to a fresh calculator leaves it exactly as
constructed. -/
theorem C9_nonpositive_noop_witness :
    (-1 : ℚ) ≤ 0 ∧
    FpsCalculator.update (FpsCalculator.construct 120) (-1)
      = FpsCalculator.construct 120 :=
  ⟨by norm_num, C9_nonpositive_noop (FpsCalculator.construct 120) (-1) (by norm_num)⟩

/-- C10: raises-iff law of the buffer accessors, over every reachable
buffer state (a fresh buffer after an arbitrary push sequence `vs`):
`get i` fails exactly when `i ≥ size()` and otherwise returns the sample
at chronological position `i` (position 0 being the oldest retained
sample); `latest` fails exactly when the buffer is empty and otherwise
returns the most recently pushed sample. -/
theorem C10_raises_iff {T : Type} [Inhabited T] (N : Nat) (vs : List T)
    (hN : 0 < N) :
    (∀ i, (RingBuffer.pushAll (RingBuffer.empty : RingBuffer T N) vs).get i
        = none
      ↔ (RingBuffer.pushAll (RingBuffer.empty : RingBuffer T N) vs).size ≤ i) ∧
    (∀ i, (RingBuffer.pushAll (RingBuffer.empty : RingBuffer T N) vs).get i
        = (vs.drop (vs.length - N))[i]?) ∧
    ((RingBuffer.pushAll (RingBuffer.empty : RingBuffer T N) vs).latest = none
      ↔ (RingBuffer.pushAll (RingBuffer.empty : RingBuffer T N) vs).size = 0) ∧
    (RingBuffer.pushAll (RingBuffer.empty : RingBuffer T N) vs).latest
      = vs.getLast? := by
  have hwf := RingBuffer.wf_pushAll (T := T) hN vs
  have hga := RingBuffer.getAll_pushAll (T := T) hN vs
  refine ⟨?_, ?_, ?_, ?_⟩
  · intro i
    rw [RingBuffer.get_eq_getAll, List.getElem?_eq_none_iff,
      RingBuffer.length_getAll]
    exact Iff.rfl
  · intro i
    rw [RingBuffer.get_eq_getAll, hga]
  · rw [RingBuffer.latest_eq_getAll _ hwf.2, List.getLast?_eq_getElem?,
      RingBuffer.length_getAll]
    simp only [RingBuffer.size]
    constructor
    · intro hnone
      by_contra hne
      have hlt : (RingBuffer.pushAll (RingBuffer.empty : RingBuffer T N)
          vs).m_size - 1
          < (RingBuffer.pushAll (RingBuffer.empty : RingBuffer T N)
          vs).getAll.length := by
        rw [RingBuffer.length_getAll]
        omega
      rw [List.getElem?_eq_getElem hlt] at hnone
      exact Option.some_ne_none _ hnone
    · intro hzero
      apply List.getElem?_eq_none
      rw [RingBuffer.length_getAll]
      omega
  · rw [RingBuffer.latest_eq_getAll _ hwf.2, hga,
      RingBuffer.getLast?_drop_sub vs N hN]

/-- C10 witness: capacity 2 and pushes `[7, 8, 9]`; `latest` returns the
newest sample `9`, and `get 5` fails as out of range. -/
theorem C10_raises_iff_witness :
    0 < 2 ∧
    (RingBuffer.pushAll (RingBuffer.empty : RingBuffer ℕ 2) [7, 8, 9]).latest
      = some 9 ∧
    (RingBuffer.pushAll (RingBuffer.empty : RingBuffer ℕ 2) [7, 8, 9]).get 5
      = none := by
  have h := C10_raises_iff 2 [7, 8, 9] (by decide)
  refine ⟨by decide, ?_, ?_⟩
  · rw [h.2.2.2]
    rfl
  · rw [h.1 5]
    decide

/-- C2 counterexample: the claim fails as stated because `update` clamps
the instantaneous rate to `MAX_FPS = 1000` before pushing.  With
`d = 1/2000` (`0 < d`, `k = 1 ≤` window size) the rolling mean is the
clamped `1000`, not `1/d = 2000`. -/
theorem C2_rolling_mean_counterexample :
    0 < (1 / 2000 : ℚ) ∧ (1 : Nat) ≤ 120 ∧
    (FpsCalculator.feed (FpsCalculator.construct 120)
        (List.replicate 1 (1 / 2000))).getAverageFPS
      ≠ 1 / (1 / 2000 : ℚ) := by
  refine ⟨by norm_num, by norm_num, ?_⟩
  have h1 : FpsCalculator.feed (FpsCalculator.construct 120)
      (List.replicate 1 (1 / 2000))
      = FpsCalculator.update (FpsCalculator.construct 120) (1 / 2000) := rfl
  rw [FpsCalculator.getAverageFPS, h1,
    FpsCalculator.averageFPS_update_pos _ _ (by norm_num)]
  have hclamp : max 0 (min (1 / (1 / 2000 : ℚ)) MAX_FPS) = 1000 := by
    norm_num [MAX_FPS]
  rw [hclamp]
  have h2 : (FpsCalculator.construct 120).m_samples.push (1000 : ℚ)
      = RingBuffer.pushAll RingBuffer.empty [1000] := rfl
  rw [h2, RingBuffer.getAll_pushAll (by norm_num [MAX_HISTORY])]
  have h3 : ([(1000 : ℚ)] : List ℚ).length - MAX_HISTORY = 0 := by
    norm_num [MAX_HISTORY]
  rw [h3, List.drop_zero]
  norm_num [FpsCalculator.listMean]

/-- C2 (amended): after every successful update (`deltaTime > 0`) the
rolling mean equals the arithmetic mean of the buffer's current full
snapshot; the mean over an empty buffer is `0`; and for every `d > 0`
whose rate `1/d` does not exceed the clamp bound `MAX_FPS` (the claim as
stated fails for smaller `d`), feeding `d` for `k ≥ 1` consecutive
updates from a fresh calculator yields a rolling mean of exactly `1/d`. -/
theorem C2_rolling_mean :
    (∀ (c : FpsCalculator) (d : ℚ), 0 < d →
      (FpsCalculator.update c d).getAverageFPS
        = FpsCalculator.listMean (FpsCalculator.update c d).getSamples) ∧
    (∀ c : FpsCalculator, FpsCalculator.getSamples c = [] →
      FpsCalculator.calculateAverage c = 0) ∧
    (∀ (h k : Nat) (d : ℚ), 0 < d → 1 / d ≤ MAX_FPS → 1 ≤ k →
      (FpsCalculator.feed (FpsCalculator.construct h)
          (List.replicate k d)).getAverageFPS = 1 / d) := by
  refine ⟨?_, ?_, ?_⟩
  · intro c d hd
    rw [FpsCalculator.getAverageFPS,
      FpsCalculator.averageFPS_update_pos c d hd]
    rw [FpsCalculator.update_pos c d hd]
    rfl
  · intro c hc
    rw [FpsCalculator.calculateAverage_eq,
      show c.m_samples.getAll = ([] : List ℚ) from hc]
    rfl
  · intro h k d hd hclamp hk
    rw [FpsCalculator.getAverageFPS]
    exact FpsCalculator.averageFPS_feed_replicate h d hd hclamp k hk

/-- C2 witness: `d = 1/60` for two updates gives a rolling mean of
exactly `60`. -/
theorem C2_rolling_mean_witness :
    0 < (1 / 60 : ℚ) ∧ 1 / (1 / 60 : ℚ) ≤ MAX_FPS ∧ 1 ≤ 2 ∧
    (FpsCalculator.feed (FpsCalculator.construct 120)
        (List.replicate 2 (1 / 60))).getAverageFPS = 1 / (1 / 60 : ℚ) :=
  ⟨by norm_num, by norm_num [MAX_FPS], by norm_num,
    C2_rolling_mean.2.2 120 2 (1 / 60) (by norm_num)
      (by norm_num [MAX_FPS]) (by norm_num)⟩

/-- C3: evaluation at the failing input.  The calculator is constructed
with history size 10 (`m_historySize = 10`), yet after 20 updates the
buffer retains 20 samples: the configured history size is never consulted
by `update`, `calculateAverage`, `getSamples` or the buffer itself, so it
does not bound the sample window as the code's own documentation says it
should. -/
theorem C3_history_size_unused :
    (FpsCalculator.construct 10).m_historySize = 10 ∧
    FpsCalculator.getSampleCount
        (FpsCalculator.feed (FpsCalculator.construct 10)
          (List.replicate 20 (1 / 60))) = 20 ∧
    (10 : Nat) < 20 := by
  refine ⟨by norm_num [FpsCalculator.construct, MAX_HISTORY], ?_, by norm_num⟩
  rw [FpsCalculator.getSampleCount,
    FpsCalculator.samples_feed_replicate 10 (1 / 60) (by norm_num) 20,
    RingBuffer.size, RingBuffer.size_pushAll (by norm_num [MAX_HISTORY])]
  norm_num [MAX_HISTORY]

/-- C4: the statistics tracker's percentile computation equals the
reference definition for every sorted input and every fraction `p`
(floor/ceil indices clamped to `[0, n−1]`, linear interpolation weighted
by the fractional part, `0` for `n = 0`, the single value for `n = 1`);
an empty input zeroes all five fields of the statistics record, and a
single-sample input makes mean, min, max and both percentiles equal that
sample. -/
theorem C4_percentile_reference :
    (∀ (sorted : List ℚ) (p : ℚ),
      StatsTracker.calculatePercentile sorted p
        = StatsTracker.percentileSpec sorted p) ∧
    StatsTracker.calculateStats [] = ⟨0, 0, 0, 0, 0⟩ ∧
    (∀ x : ℚ, StatsTracker.calculateStats [x] = ⟨x, x, x, x, x⟩) := by
  refine ⟨?_, rfl, ?_⟩
  · intro sorted p
    simp only [StatsTracker.calculatePercentile, StatsTracker.percentileSpec]
    by_cases h0 : sorted.isEmpty = true
    · have h0' : sorted.length = 0 := by
        rw [List.isEmpty_iff] at h0
        simp [h0]
      rw [if_pos h0, if_pos h0']
    · have h0' : ¬ sorted.length = 0 := by
        rw [List.isEmpty_iff] at h0
        simpa [List.length_eq_zero] using h0
      rw [if_neg h0, if_neg h0']
      by_cases h1 : sorted.length = 1
      · rw [if_pos h1, if_pos h1]
      · rw [if_neg h1, if_neg h1]
        split_ifs with hlo
        · rw [hlo]
          ring
        · ring
  · intro x
    simp only [StatsTracker.calculateStats, List.isEmpty_cons,
      Bool.false_eq_true, if_false, List.insertionSort, List.orderedInsert,
      StatsTracker.calculatePercentile, List.length_singleton, if_pos rfl,
      List.isEmpty_nil]
    norm_num

/-- C5: `checkForDrop(current, average)` returns `false` whenever
`average < 10`; otherwise it returns `true` exactly when
`(average − current) / average * 100 ≥ thresholdPercent`.  In particular
with threshold 15, `average = 100, current = 80` is detected (20% ≥ 15%)
and `average = 100, current = 90` is not (10% < 15%). -/
theorem C5_checkForDrop_law :
    (∀ (det : DropDetector) (c a : ℚ), a < 10 →
      DropDetector.checkForDrop det c a = false) ∧
    (∀ (det : DropDetector) (c a : ℚ), ¬ a < 10 →
      (DropDetector.checkForDrop det c a = true
        ↔ ((a - c) / a) * 100 ≥ det.m_thresholdPercent)) ∧
    DropDetector.checkForDrop (DropDetector.construct 15 0) 80 100 = true ∧
    DropDetector.checkForDrop (DropDetector.construct 15 0) 90 100 = false := by
  refine ⟨?_, ?_, ?_, ?_⟩
  · intro det c a ha
    rw [DropDetector.checkForDrop, if_pos ha]
  · intro det c a ha
    rw [DropDetector.checkForDrop, if_neg ha]
    exact decide_eq_true_iff
  · rw [DropDetector.checkForDrop,
      if_neg (by norm_num : ¬ (100 : ℚ) < 10)]
    rw [decide_eq_true_iff]
    norm_num [DropDetector.construct]
  · rw [DropDetector.checkForDrop,
      if_neg (by norm_num : ¬ (100 : ℚ) < 10)]
    rw [decide_eq_false_iff_not]
    norm_num [DropDetector.construct]

/-- C5 witness: for an average of 7 (below the 10 floor) no drop is
reported whatever the current rate. -/
theorem C5_checkForDrop_law_witness :
    (7 : ℚ) < 10 ∧
    DropDetector.checkForDrop (DropDetector.construct 15 0) 5 7 = false :=
  ⟨by norm_num, C5_checkForDrop_law.1 (DropDetector.construct 15 0) 5 7
    (by norm_num)⟩

/-- C6: debounce law.  If two update calls both satisfy the drop
condition, the first one is recorded (at clock `t1`), and the second
occurs within the 0.5 s debounce window (`t2 − t1 < DEBOUNCE_SECONDS`),
then the pair produces exactly one recorded Drop Event and exactly one
callback invocation: the first call records and reports the event, the
second produces no event, no callback, and leaves the detector state
(including the event history) exactly unchanged. -/
theorem C6_debounce (det : DropDetector) (t1 t2 c1 a1 c2 a2 : ℚ)
    (h1 : DropDetector.checkForDrop det c1 a1 = true)
    (h2 : DropDetector.checkForDrop det c2 a2 = true)
    (hd : t1 - det.m_lastDrop ≥ DEBOUNCE_SECONDS)
    (ht : t2 - t1 < DEBOUNCE_SECONDS) :
    (DropDetector.update det t1 c1 a1).2
        = some ⟨t1, a1, c1, (a1 - c1) / a1⟩ ∧
    ((DropDetector.update det t1 c1 a1).1).m_drops.getLast?
        = some ⟨t1, a1, c1, (a1 - c1) / a1⟩ ∧
    (DropDetector.update (DropDetector.update det t1 c1 a1).1 t2 c2 a2).2
        = none ∧
    (DropDetector.update (DropDetector.update det t1 c1 a1).1 t2 c2 a2).1
        = (DropDetector.update det t1 c1 a1).1 := by
  have e1 : DropDetector.update det t1 c1 a1
      = ({ m_thresholdPercent := det.m_thresholdPercent
           m_drops := if (det.m_drops
                 ++ [Drop.mk t1 a1 c1 ((a1 - c1) / a1)]).length
               > MAX_DROP_HISTORY
             then (det.m_drops ++ [Drop.mk t1 a1 c1 ((a1 - c1) / a1)]).tail
             else det.m_drops ++ [Drop.mk t1 a1 c1 ((a1 - c1) / a1)]
           m_lastDrop := t1 }, some (Drop.mk t1 a1 c1 ((a1 - c1) / a1))) := by
    rw [DropDetector.update, if_pos h1, if_pos hd]
  have hcheck2 : DropDetector.checkForDrop (DropDetector.update det t1 c1 a1).1
      c2 a2 = true := by
    rw [DropDetector.checkForDrop] at h2 ⊢
    rw [DropDetector.threshold_update]
    exact h2
  have hnotdb : ¬ t2 - ((DropDetector.update det t1 c1 a1).1).m_lastDrop
      ≥ DEBOUNCE_SECONDS := by
    rw [e1]
    simp only [not_le]
    linarith
  have e2 : DropDetector.update (DropDetector.update det t1 c1 a1).1 t2 c2 a2
      = ((DropDetector.update det t1 c1 a1).1, none) := by
    rw [DropDetector.update, if_pos hcheck2, if_neg hnotdb]
  refine ⟨by rw [e1], ?_, by rw [e2], by rw [e2]⟩
  rw [e1]
  by_cases hlen : (det.m_drops ++ [Drop.mk t1 a1 c1 ((a1 - c1) / a1)]).length
      > MAX_DROP_HISTORY
  · simp only [if_pos hlen]
    rcases hds : det.m_drops with _ | ⟨y, ys⟩
    · rw [hds] at hlen
      simp [MAX_DROP_HISTORY] at hlen
    · rw [List.cons_append, List.tail_cons, List.getLast?_concat]
  · simp only [if_neg hlen]
    rw [List.getLast?_concat]

/-- C6 witness: threshold 15, first breach at `t = 1`, second at
`t = 1.1` (0.1 s later, inside the 0.5 s window): one event, one
callback, second call leaves the state unchanged. -/
theorem C6_debounce_witness :
    DropDetector.checkForDrop (DropDetector.construct 15 0) 80 100 = true ∧
    (DropDetector.update (DropDetector.construct 15 0) 1 80 100).2
      = some ⟨1, 100, 80, (100 - 80) / 100⟩ ∧
    (DropDetector.update
        (DropDetector.update (DropDetector.construct 15 0) 1 80 100).1
        (11 / 10) 80 100).2 = none ∧
    (DropDetector.update
        (DropDetector.update (DropDetector.construct 15 0) 1 80 100).1
        (11 / 10) 80 100).1
      = (DropDetector.update (DropDetector.construct 15 0) 1 80 100).1 := by
  have hch : DropDetector.checkForDrop (DropDetector.construct 15 0) 80 100
      = true := by
    rw [DropDetector.checkForDrop, if_neg (by norm_num : ¬ (100 : ℚ) < 10),
      decide_eq_true_iff]
    norm_num [DropDetector.construct]
  have h := C6_debounce (DropDetector.construct 15 0) 1 (11 / 10) 80 100 80 100
    hch hch
    (by norm_num [DropDetector.construct, DEBOUNCE_SECONDS])
    (by norm_num [DEBOUNCE_SECONDS])
  exact ⟨hch, h.1, h.2.2.1, h.2.2.2⟩

/-- C7 counterexample: the constructor does not clamp, so a detector
constructed with threshold 3 reports `getThreshold() = 3`, outside
`[5, 50]`. -/
theorem C7_threshold_counterexample :
    DropDetector.getThreshold (DropDetector.construct 3 0) = 3 ∧
    ¬ 5 ≤ DropDetector.getThreshold (DropDetector.construct 3 0) := by
  refine ⟨rfl, ?_⟩
  rw [DropDetector.getThreshold]
  norm_num [DropDetector.construct]

/-- C7 (amended): `setThreshold` clamps every input into `[5, 50]`
(setting 3 stores 5 and setting 99 stores 50), and neither `update` nor
`clearHistory` changes the stored threshold — so the threshold lies in
`[5, 50]` in every state reached after at least one `setThreshold`.  The
constructor, however, stores its argument unclamped (see the
counterexample), so the invariant does not cover freshly constructed
detectors. -/
theorem C7_threshold_clamp :
    (∀ (det : DropDetector) (p : ℚ),
      5 ≤ (DropDetector.setThreshold det p).getThreshold ∧
      (DropDetector.setThreshold det p).getThreshold ≤ 50) ∧
    (∀ det : DropDetector, (DropDetector.setThreshold det 3).getThreshold = 5) ∧
    (∀ det : DropDetector,
      (DropDetector.setThreshold det 99).getThreshold = 50) ∧
    (∀ (det : DropDetector) (now c a : ℚ),
      ((DropDetector.update det now c a).1).getThreshold
        = det.getThreshold) ∧
    (∀ det : DropDetector,
      (DropDetector.clearHistory det).getThreshold = det.getThreshold) := by
  refine ⟨?_, ?_, ?_, ?_, ?_⟩
  · intro det p
    rw [DropDetector.getThreshold, DropDetector.setThreshold]
    constructor
    · exact le_max_left 5 _
    · exact max_le (by norm_num) (min_le_right p 50)
  · intro det
    rw [DropDetector.getThreshold, DropDetector.setThreshold]
    norm_num
  · intro det
    rw [DropDetector.getThreshold, DropDetector.setThreshold]
    norm_num
  · intro det now c a
    rw [DropDetector.getThreshold, DropDetector.getThreshold]
    exact DropDetector.threshold_update det now c a
  · intro det
    rfl

/-- C8 counterexample: the claim fails as stated because a negative
`current` drives the magnitude above 1.  With threshold 15, `current
= −5` and `average = 100` a drop is recorded whose magnitude is
`105/100 > 1`. -/
theorem C8_magnitude_counterexample :
    (DropDetector.update (DropDetector.construct 15 0) 1 (-5) 100).2
      = some ⟨1, 100, -5, 21 / 20⟩ ∧ ¬ (21 / 20 : ℚ) ≤ 1 := by
  constructor
  · have hch : DropDetector.checkForDrop (DropDetector.construct 15 0) (-5) 100
        = true := by
      rw [DropDetector.checkForDrop, if_neg (by norm_num : ¬ (100 : ℚ) < 10),
        decide_eq_true_iff]
      norm_num [DropDetector.construct]
    rw [DropDetector.update, if_pos hch,
      if_pos (by norm_num [DropDetector.construct, DEBOUNCE_SECONDS])]
    norm_num
  · norm_num

/-- C8 (amended): every recorded Drop Event has
`magnitude = (average − current) / average`; whenever `current ≥ 0` and
the stored threshold is nonnegative (as it is after any `setThreshold`,
which clamps into `[5, 50]`), the magnitude lies in `[0, 1]`.  For
negative `current` the magnitude exceeds 1 and for negative stored
thresholds it can be negative (the constructor accepts both), so the
claim does not hold for all double inputs. -/
theorem C8_magnitude (det : DropDetector) (now c a : ℚ)
    (det2 : DropDetector) (drop : Drop)
    (h : DropDetector.update det now c a = (det2, some drop)) :
    drop.magnitude = (a - c) / a ∧
    (0 ≤ c → 0 ≤ det.m_thresholdPercent →
      0 ≤ drop.magnitude ∧ drop.magnitude ≤ 1) := by
  by_cases hch : DropDetector.checkForDrop det c a = true
  · by_cases hdb : now - det.m_lastDrop ≥ DEBOUNCE_SECONDS
    · rw [DropDetector.update, if_pos hch, if_pos hdb] at h
      have hdrop : drop = Drop.mk now a c ((a - c) / a) :=
        (Option.some_inj.mp (congrArg Prod.snd h)).symm
      have hcond := (DropDetector.checkForDrop_iff det c a).mp hch
      have ha : (0 : ℚ) < a := by
        rcases hcond with ⟨hna, _⟩
        linarith [not_lt.mp hna]
      refine ⟨by rw [hdrop], ?_⟩
      intro hc hth
      have hfrac : 0 ≤ (a - c) / a := by
        rcases hcond with ⟨_, hge⟩
        nlinarith [hge, hth]
      refine ⟨by rw [hdrop]; exact hfrac, ?_⟩
      rw [hdrop]
      show (a - c) / a ≤ 1
      rw [div_le_one ha]
      linarith
    · rw [DropDetector.update, if_pos hch, if_neg hdb] at h
      exact absurd (congrArg Prod.snd h) (by simp)
  · rw [DropDetector.update, if_neg hch] at h
    exact absurd (congrArg Prod.snd h) (by simp)

/-- C8 witness: threshold 15, `current = 80`, `average = 100` records a
drop of magnitude `1/5 ∈ [0, 1]`. -/
theorem C8_magnitude_witness :
    ((⟨1, 100, 80, 1 / 5⟩ : Drop).magnitude = (100 - 80) / 100 ∧
      0 ≤ (⟨1, 100, 80, 1 / 5⟩ : Drop).magnitude ∧
      (⟨1, 100, 80, 1 / 5⟩ : Drop).magnitude ≤ 1) := by
  have hupd : DropDetector.update (DropDetector.construct 15 0) 1 80 100
      = ({ m_thresholdPercent := 15
           m_drops := [⟨1, 100, 80, 1 / 5⟩]
           m_lastDrop := 1 }, some ⟨1, 100, 80, 1 / 5⟩) := by
    have hch : DropDetector.checkForDrop (DropDetector.construct 15 0) 80 100
        = true := by
      rw [DropDetector.checkForDrop, if_neg (by norm_num : ¬ (100 : ℚ) < 10),
        decide_eq_true_iff]
      norm_num [DropDetector.construct]
    rw [DropDetector.update, if_pos hch,
      if_pos (by norm_num [DropDetector.construct, DEBOUNCE_SECONDS])]
    norm_num [DropDetector.construct, MAX_DROP_HISTORY]
  have h := C8_magnitude (DropDetector.construct 15 0) 1 80 100 _ _ hupd
  exact ⟨h.1, h.2 (by norm_num) (by norm_num [DropDetector.construct])⟩

end FpsMonitor
